import Mathlib

/-!
Verification of the durable graph-execution engine described by the design
specification of this repository, together with the node functions found in
the repository sources (tool-retry node, human-approval nodes, step nodes,
counter node, memory-store scenarios).

The engine itself (graph executor, checkpoint store, interrupt controller,
memory store, tool node) is consumed by the repository through the
`langgraph` API and is not part of the sources; those components are
modelled from the specification.  Every node function and every graph
wiring below is translated from the corresponding repository source file.
-/

set_option maxRecDepth 4000

/-- Identifier of a node in the graph (a plain name, as in the sources). -/
abbrev NodeId := String

/-- Sentinel node name bounding the graph (the `END` sentinel). -/
def endNode : NodeId := "__end__"

/-- A tool call attached to an assistant message: name, arguments (kept
opaque as a single string) and the call identifier. -/
structure ToolCall where
  name : String
  args : String
  id : String
deriving DecidableEq

/-- Messages exchanged in the state: user messages, assistant messages
(carrying tool calls) and tool result messages carrying the identifier of
the call they answer. -/
inductive Msg where
  | human (content : String)
  | ai (content : String) (tool_calls : List ToolCall)
  | tool (content : String) (tool_call_id : String)
deriving DecidableEq

/-- Tool calls of a message: assistant messages expose their calls, other
message kinds have none (mirrors the `hasattr(m, "tool_calls")` checks). -/
def Msg.toolCalls : Msg → List ToolCall
  | .ai _ tcs => tcs
  | _ => []

/-- Outcome of running one node: a state update merged by the declared
field semantics, an explicit control directive `goto` with an optional
update, or a suspension request carrying an opaque payload. -/
inductive Outcome (υ π : Type) where
  | update (u : υ)
  | goto (target : NodeId) (u : Option υ)
  | suspend (payload : π)
deriving DecidableEq

/-- Errors surfaced by the engine to the caller. -/
inductive EngineError where
  | noPendingInterrupt
  | unknownNode
  | noInput
deriving DecidableEq

/-- Result of one `run` call: a final snapshot, a surfaced interrupt
payload, a tagged error, or exhaustion of the step budget (which models an
execution stopped partway, e.g. by a crash). -/
inductive RunResult (σ π : Type) where
  | finished (snap : σ)
  | interrupted (payload : π)
  | failed (e : EngineError)
  | outOfFuel
deriving DecidableEq

/-- Modelled from the spec: one persisted checkpoint — the snapshot, the
nodes scheduled to run next (empty means terminal) and the zero-or-one
pending interrupt recorded against this checkpoint. -/
structure Checkpoint (σ π : Type) where
  snapshot : σ
  pendingNodes : List NodeId
  interrupt : Option (NodeId × π)
deriving DecidableEq

/-- Modelled from the spec: a graph owns the merge semantics of the state,
the node functions, the (conditional) edge routing evaluated over the
post-update snapshot, and the successors of the START sentinel.  A node
receives the current snapshot and, when it is being resumed, the resume
value that the suspension call inside it returns. -/
structure Graph (σ υ ρ π : Type) where
  merge : σ → υ → σ
  nodes : NodeId → Option (σ → Option ρ → Outcome υ π)
  edges : NodeId → σ → List NodeId
  entry : List NodeId

/-- Modelled from the spec: the unresolved interrupt of a thread, read
from the latest persisted checkpoint alone (no in-memory state). -/
def unresolvedInterrupt {σ π : Type} : List (Checkpoint σ π) → Option (NodeId × π)
  | [] => none
  | cp :: _ => cp.interrupt

/-- Modelled from the spec: how the executor processes the outcome of one
node `n` run against checkpoint `cp` (with further scheduled nodes `ns`
and checkpoint history `rest`): an update is merged and a new checkpoint
with the routed successors is appended; a goto merges its optional update
and redirects; a suspension records the interrupt against the current
checkpoint and returns control to the caller.  `cont` continues the step
loop. -/
def execOutcome {σ υ ρ π : Type} (g : Graph σ υ ρ π)
    (cont : List (Checkpoint σ π) → RunResult σ π × List (Checkpoint σ π))
    (cp : Checkpoint σ π) (rest : List (Checkpoint σ π))
    (n : NodeId) (ns : List NodeId) :
    Outcome υ π → RunResult σ π × List (Checkpoint σ π)
  | .suspend p => (.interrupted p, { cp with interrupt := some (n, p) } :: rest)
  | .update u =>
      let s' := g.merge cp.snapshot u
      cont (⟨s', ns ++ g.edges n s', none⟩ :: cp :: rest)
  | .goto tgt u =>
      let s' := match u with
        | some u => g.merge cp.snapshot u
        | none => cp.snapshot
      cont (⟨s', if tgt = endNode then [] else [tgt], none⟩ :: cp :: rest)

/-- Modelled from the spec: the fuel-bounded step loop of the executor.
Each step pops the next scheduled node of the latest checkpoint, runs it
(delivering the resume value only on the first step of a resume call) and
processes its outcome; empty pending nodes terminate the run with the
final snapshot. -/
def runLoop {σ υ ρ π : Type} (g : Graph σ υ ρ π) :
    Nat → List (Checkpoint σ π) → Option ρ →
    RunResult σ π × List (Checkpoint σ π)
  | 0, t, _ => (.outOfFuel, t)
  | fuel + 1, t, res =>
    match t with
    | [] => (.failed .noInput, t)
    | cp :: rest =>
      match cp.pendingNodes with
      | [] => (.finished cp.snapshot, t)
      | n :: ns =>
        match g.nodes n with
        | none => (.failed .unknownNode, t)
        | some f =>
            execOutcome g (fun t' => runLoop g fuel t' none) cp rest n ns
              (f cp.snapshot res)

/-- Modelled from the spec: `run(threadId, input, resumeValue?)`.  With a
resume value it requires an unresolved interrupt and otherwise fails with
`NoPendingInterrupt` leaving the thread unchanged; with no resume value a
fresh thread is initialised from the input and scheduled at the START
successors, while an existing thread is continued from its latest
persisted checkpoint with no new input merged. -/
def run {σ υ ρ π : Type} (g : Graph σ υ ρ π) (fuel : Nat)
    (t : List (Checkpoint σ π)) (input : Option σ) (resume : Option ρ) :
    RunResult σ π × List (Checkpoint σ π) :=
  match resume with
  | some _ =>
    match unresolvedInterrupt t with
    | some _ => runLoop g fuel t resume
    | none => (.failed .noPendingInterrupt, t)
  | none =>
    match t with
    | [] =>
      match input with
      | some s => runLoop g fuel [⟨s, g.entry, none⟩] none
      | none => (.failed .noInput, t)
    | _ :: _ => runLoop g fuel t none

/-!
Interrupt controller, modelled from the spec as an explicit state machine:
Running → Suspended → Running (on resume) → (Suspended again | Completed).
Its payload type `π` and resume type `ρ` are opaque parameters.
-/

/-- Modelled from the spec: the per-thread interrupt-controller state. -/
inductive CtrlState (π : Type) where
  | running
  | suspended (payload : π)
  | completed
deriving DecidableEq

/-- Events driving the interrupt controller: a node requests suspension
with a payload, the caller resumes with a value, or the graph reaches the
END sentinel. -/
inductive CtrlEvent (π ρ : Type) where
  | suspend (payload : π)
  | resume (value : ρ)
  | complete
deriving DecidableEq

/-- Defined errors of the interrupt controller. -/
inductive CtrlError where
  | alreadySuspended
  | noPendingInterrupt
  | stillSuspended
  | alreadyCompleted
deriving DecidableEq

/-- Modelled from the spec: one controller transition.  A second
suspension request while one interrupt is unresolved is a defined error
(the pending payload is not overwritten); a resume without a pending
interrupt is the `NoPendingInterrupt` error. -/
def ctrlStep {π ρ : Type} : CtrlState π → CtrlEvent π ρ → Except CtrlError (CtrlState π)
  | .running, .suspend p => .ok (.suspended p)
  | .running, .resume _ => .error .noPendingInterrupt
  | .running, .complete => .ok .completed
  | .suspended _, .suspend _ => .error .alreadySuspended
  | .suspended _, .resume _ => .ok .running
  | .suspended _, .complete => .error .stillSuspended
  | .completed, _ => .error .alreadyCompleted

/-- Run the controller over a list of events, stopping at the first
defined error. -/
def ctrlRun {π ρ : Type} : CtrlState π → List (CtrlEvent π ρ) → Except CtrlError (CtrlState π)
  | s, [] => .ok s
  | s, e :: es =>
    match ctrlStep s e with
    | .ok s' => ctrlRun s' es
    | .error err => .error err

/-- A controller state reachable from the initial Running state by a
sequence of successful events. -/
def CtrlReachable (π ρ : Type) (s : CtrlState π) : Prop :=
  ∃ evs : List (CtrlEvent π ρ), ctrlRun CtrlState.running evs = .ok s

/-- Number of unresolved interrupts tracked by a controller state. -/
def pendingCount {π : Type} : CtrlState π → Nat
  | .suspended _ => 1
  | _ => 0

/-!
Memory store, modelled from the spec: a namespaced key/value store where a
namespace is an ordered tuple of path segments and `search` is a
namespace-prefix scan.  Timestamps are abstract ticks supplied by the
caller.  (The optional similarity ranking, limit and value filter of
`search` are not needed by the claims and are omitted.)
-/

/-- Decides whether namespace `p` is a path prefix of namespace `q`. -/
def nsLe : List String → List String → Bool
  | [], _ => true
  | _ :: _, [] => false
  | a :: as, b :: bs => a == b && nsLe as bs

/-- Modelled from the spec: a persisted memory item — namespace path,
key, value and creation/update timestamps. -/
structure MemItem (V : Type) where
  ns : List String
  key : String
  value : V
  created_at : Nat
  updated_at : Nat
deriving DecidableEq

/-- The memory store contents. -/
abbrev MemStore (V : Type) := List (MemItem V)

/-- Exact-key lookup within one namespace. -/
def memGet {V : Type} (s : MemStore V) (ns : List String) (k : String) : Option (MemItem V) :=
  s.find? fun it => it.ns == ns && it.key == k

/-- Modelled from the spec: `put` inserts or replaces the item at
`(ns, k)`, setting `updated_at` to the current tick and preserving
`created_at` across replacement. -/
def memPut {V : Type} (s : MemStore V) (now : Nat) (ns : List String) (k : String) (v : V) :
    MemStore V :=
  let created := match memGet s ns k with
    | some old => old.created_at
    | none => now
  ⟨ns, k, v, created, now⟩ :: s.filter fun it => !(it.ns == ns && it.key == k)

/-- Modelled from the spec: `search` over a namespace prefix returns the
items of all namespaces extending that prefix. -/
def memSearch {V : Type} (s : MemStore V) (p : List String) : MemStore V :=
  s.filter fun it => nsLe p it.ns

/-!
Source file `04_tool_error_handling.py`: state with error tracking, the
custom `RetryToolNode`, and the default `ToolNode(tools,
handle_tool_errors=True)`.

A tool execution environment maps a tool name, the attempt index and the
argument string to either a raised exception (`Except.error`) or a
returned value; a returned `none` models the Python function returning
`None`.  The attempt index makes the number of invocations observable.
-/

/-- A tool execution environment (name, attempt index, arguments). -/
abbrev ToolEnv := String → Nat → String → Except String (Option String)

/-- State of `04_tool_error_handling.py`: message log plus error counter. -/
structure State04 where
  messages : List Msg
  error_count : Int
deriving DecidableEq

/-- Update dictionary returned by the nodes of
`04_tool_error_handling.py` (both fields are always returned). -/
structure Upd04 where
  messages : List Msg
  error_count : Int
deriving DecidableEq

/-- Retry loop of `RetryToolNode.__call__`: starting at attempt `a` with
`rem` attempts remaining and accumulated `last_error`, invoke the tool;
a non-raising invocation stops the loop with its result, a raised
exception records `last_error` and continues.  Returns the final
`result`, the final `last_error` and the number of invocations made. -/
def retryLoop (tool : Nat → Except String (Option String)) :
    Nat → Nat → Option String → Option String × Option String × Nat
  | _, 0, le => (none, le, 0)
  | a, rem + 1, le =>
    match tool a with
    | .ok r => (r, le, 1)
    | .error e =>
      let (res, le2, c) := retryLoop tool (a + 1) rem (some e)
      (res, le2, c + 1)

/-- Text shown for `last_error` inside the failure message (the Python
f-string prints `None` when no exception was recorded). -/
def lastErrText : Option String → String
  | some e => e
  | none => "None"

/-- The failure message `f"Failed after {max_retries + 1} attempts:
{last_error}"` of `RetryToolNode.__call__`. -/
def failedMsg (maxRetries : Nat) (lastError : Option String) : String :=
  "Failed after " ++ toString (maxRetries + 1) ++ " attempts: " ++ lastErrText lastError

/-- `RetryToolNode.__call__` from `04_tool_error_handling.py`: for each
tool call of the last message, run the retry loop over at most
`max_retries + 1` attempts and append one `ToolMessage` carrying the
call identifier — the successful result if one was obtained, the failure
message otherwise; `error_count` is passed through unchanged. -/
def retryToolNode (maxRetries : Nat) (tools : ToolEnv) (s : State04) : Upd04 :=
  let last := (s.messages.getLast?.map Msg.toolCalls).getD []
  let results := last.map fun c =>
    let (result, lastError, _) := retryLoop (fun a => tools c.name a c.args) 0 (maxRetries + 1) none
    match result with
    | some r => Msg.tool r c.id
    | none => Msg.tool (failedMsg maxRetries lastError) c.id
  ⟨results, s.error_count⟩

/-- Modelled from the spec: the prebuilt `ToolNode` used with
`handle_tool_errors=True` in `build_graph` — each tool call of the last
message is executed exactly once (attempt index 0); a raised exception is
captured as a `ToolMessage` whose content describes the error when error
handling is on, and propagates as a failure otherwise.  A `None` return is
rendered as the empty content string. -/
def toolNode (handle : Bool) (tools : ToolEnv) : List ToolCall → Except String (List Msg)
  | [] => .ok []
  | c :: cs =>
    match tools c.name 0 c.args with
    | .ok r => (toolNode handle tools cs).map (Msg.tool ((r).getD "") c.id :: ·)
    | .error e =>
      if handle then (toolNode handle tools cs).map (Msg.tool ("Error: " ++ e) c.id :: ·)
      else .error e

/-!
Specification-side description of the retry behaviour, written from the
claim: the loop stops at the first attempt that does not raise; a non-None
result of that attempt becomes the message content, while exhausting all
`max_retries + 1` attempts — or a `None` return — yields the failure
report.  These definitions are compared with the source-side `retryLoop`.
-/

/-- Index of the first non-raising attempt among `rem` attempts starting
at `a`, if any. -/
def firstOkFrom (tool : Nat → Except String (Option String)) : Nat → Nat → Option Nat
  | _, 0 => none
  | a, rem + 1 =>
    match tool a with
    | .ok _ => some a
    | .error _ => firstOkFrom tool (a + 1) rem

/-- The error text of a raising attempt (fallback for a non-raising one,
never used on raising attempts). -/
def errTextOf : Except String (Option String) → Option String
  | .error e => some e
  | .ok _ => none

/-- The returned value of a non-raising attempt. -/
def okValOf : Except String (Option String) → Option String
  | .ok r => r
  | .error _ => none

/-- Claim-side content of the `ToolMessage` produced for one call: the
result of the first non-raising attempt when it is non-None; otherwise the
failure report whose recorded error is the most recent raised one. -/
def claimedContent (tool : Nat → Except String (Option String)) (maxRetries : Nat) : String :=
  match firstOkFrom tool 0 (maxRetries + 1) with
  | some k =>
    match tool k with
    | .ok (some r) => r
    | _ => failedMsg maxRetries (if k = 0 then none else errTextOf (tool (k - 1)))
  | none => failedMsg maxRetries (errTextOf (tool maxRetries))

/-- Claim-side number of tool invocations for one call: the loop stops
right after the first non-raising attempt and never exceeds
`max_retries + 1` attempts. -/
def claimedInvocations (tool : Nat → Except String (Option String)) (maxRetries : Nat) : Nat :=
  match firstOkFrom tool 0 (maxRetries + 1) with
  | some k => k + 1
  | none => maxRetries + 1

/-!
Source file `06_hitl_approve_reject_edit.py`: approval node with
approve / reject / edit support, agent node and graph wiring.  The LLM is
an opaque external collaborator passed in as a function.
-/

/-- State of `06_hitl_approve_reject_edit.py`: only the message log. -/
structure State06 where
  messages : List Msg
deriving DecidableEq

/-- Update dictionary of the nodes of `06_hitl_approve_reject_edit.py`:
a list of messages merged by the append reducer. -/
abbrev Upd06 := List Msg

/-- Human decision resuming an approval interrupt: the dictionary keys
read by the approval nodes, each possibly absent. -/
structure Decision where
  action : Option String
  reason : Option String
  edited_args : Option String
deriving DecidableEq

/-- Interrupt payload surfaced by `human_approval` in
`06_hitl_approve_reject_edit.py`. -/
structure Payload06 where
  action : String
  tool_name : String
  tool_args : String
  options : List String
deriving DecidableEq

/-- Merge semantics of `State06`: `messages` is declared with the
`add_messages` append reducer (modelled from the spec as appending). -/
def merge06 (s : State06) (u : Upd06) : State06 :=
  ⟨s.messages ++ u⟩

/-- The last message of a log together with its tool calls. -/
def lastCalls (msgs : List Msg) : List ToolCall :=
  (msgs.getLast?.map Msg.toolCalls).getD []

/-- Replace the arguments of the first tool call of a message (the
in-place `last_message.tool_calls[0]["args"] = edited_args` mutation). -/
def editFirstCall (m : Msg) (newArgs : String) : Msg :=
  match m with
  | .ai c (tc :: tcs) => .ai c ({ tc with args := newArgs } :: tcs)
  | m => m

/-- `human_approval` from `06_hitl_approve_reject_edit.py`.  With no tool
calls on the last message it routes back to the agent.  Otherwise it
suspends with the approval payload; on resume the decision defaults its
absent action to reject: approve goes to the tools node, reject appends a
rejection `ToolMessage` and returns to the agent, edit rewrites the first
tool call arguments and goes to the tools node, and any other action
returns to the agent with no update. -/
def humanApproval06 (s : State06) (resume : Option Decision) : Outcome Upd06 Payload06 :=
  match lastCalls s.messages with
  | [] => .goto "agent" none
  | tc :: _ =>
    match resume with
    | none =>
        .suspend ⟨"approve_tool_call", tc.name, tc.args, ["approve", "reject", "edit"]⟩
    | some decision =>
      let action := decision.action.getD "reject"
      if action = "approve" then
        .goto "tools" none
      else if action = "reject" then
        .goto "agent" (some [Msg.tool
          ("Tool call rejected by human: " ++ decision.reason.getD "No reason provided")
          tc.id])
      else if action = "edit" then
        let edited := decision.edited_args.getD tc.args
        .goto "tools" (some [(s.messages.getLast?.map (editFirstCall · edited)).getD (.human "")])
      else
        .goto "agent" none

/-- `agent` from `06_hitl_approve_reject_edit.py`: invoke the bound LLM
over the message log and append its response. -/
def agent06 (llm : List Msg → Msg) (s : State06) (_ : Option Decision) :
    Outcome Upd06 Payload06 :=
  .update [llm s.messages]

/-- Tools node of `06_hitl_approve_reject_edit.py` (the prebuilt
`ToolNode(tools)`, modelled from the spec): run every tool call of the
last message and append one `ToolMessage` per call. -/
def toolsNode06 (toolRun : String → String → String) (s : State06) (_ : Option Decision) :
    Outcome Upd06 Payload06 :=
  .update ((lastCalls s.messages).map fun c => Msg.tool (toolRun c.name c.args) c.id)

/-- Graph of `06_hitl_approve_reject_edit.py`: START → agent, conditional
edge from agent to human approval (or END) via `should_continue`, and
tools → agent; the approval node routes by returned `Command`. -/
def graph06 (llm : List Msg → Msg) (toolRun : String → String → String) :
    Graph State06 Upd06 Decision Payload06 where
  merge := merge06
  nodes := fun n =>
    if n = "agent" then some (agent06 llm)
    else if n = "human_approval" then some humanApproval06
    else if n = "tools" then some (toolsNode06 toolRun)
    else none
  edges := fun n s =>
    if n = "agent" then (if lastCalls s.messages ≠ [] then ["human_approval"] else [])
    else if n = "tools" then ["agent"]
    else []
  entry := ["agent"]

/-!
Source file `07_durable_basic.py`: three sequential steps over a state
with a message log, a step counter and a metadata dictionary.
-/

/-- The metadata dictionary of `07_durable_basic.py`, as an association
list over boolean flags. -/
abbrev Meta07 := List (String × Bool)

/-- Dictionary update `{**old, key: v}` (the new binding shadows any
previous one). -/
def setKey (m : Meta07) (k : String) (v : Bool) : Meta07 :=
  (k, v) :: m.filter fun kv => kv.1 ≠ k

/-- State of `07_durable_basic.py`. -/
structure State07 where
  messages : List Msg
  step_count : Nat
  metadata : Meta07
deriving DecidableEq

/-- Update dictionary of the step nodes of `07_durable_basic.py` (all
three fields are always returned). -/
structure Upd07 where
  messages : List Msg
  step_count : Nat
  metadata : Meta07
deriving DecidableEq

/-- Merge semantics of `State07`: `messages` appends (the `add_messages`
reducer, modelled from the spec), the other fields replace. -/
def merge07 (s : State07) (u : Upd07) : State07 :=
  ⟨s.messages ++ u.messages, u.step_count, u.metadata⟩

/-- `step1` from `07_durable_basic.py`. -/
def step1 (llm : List Msg → Msg) (s : State07) (_ : Option Unit) : Outcome Upd07 Empty :=
  .update ⟨[llm s.messages], s.step_count + 1, setKey s.metadata "step1_done" true⟩

/-- `step2` from `07_durable_basic.py` (the LLM also receives the extra
follow-up prompt). -/
def step2 (llm : List Msg → Msg) (s : State07) (_ : Option Unit) : Outcome Upd07 Empty :=
  .update ⟨[llm (s.messages ++ [Msg.human "Continue with more detail."])],
    s.step_count + 1, setKey s.metadata "step2_done" true⟩

/-- `step3` from `07_durable_basic.py`. -/
def step3 (llm : List Msg → Msg) (s : State07) (_ : Option Unit) : Outcome Upd07 Empty :=
  .update ⟨[llm (s.messages ++ [Msg.human "Summarize in one sentence."])],
    s.step_count + 1, setKey s.metadata "step3_done" true⟩

/-- Graph of `07_durable_basic.py`: START → step1 → step2 → step3 → END,
compiled with the SQLite checkpointer. -/
def graph07 (llm : List Msg → Msg) : Graph State07 Upd07 Unit Empty where
  merge := merge07
  nodes := fun n =>
    if n = "step1" then some (step1 llm)
    else if n = "step2" then some (step2 llm)
    else if n = "step3" then some (step3 llm)
    else none
  edges := fun n _ =>
    if n = "step1" then ["step2"]
    else if n = "step2" then ["step3"]
    else []
  entry := ["step1"]

/-!
Source file `08_durable_hitl.py`: durable HITL graph whose interrupt
survives a process restart.
-/

/-- State of `08_durable_hitl.py`. -/
structure State08 where
  messages : List Msg
  approval_count : Nat
deriving DecidableEq

/-- Update dictionary of the nodes of `08_durable_hitl.py`; each field is
present only when the node returns it. -/
structure Upd08 where
  messages : Option (List Msg)
  approval_count : Option Nat
deriving DecidableEq

/-- Interrupt payload surfaced by `human_approval` in
`08_durable_hitl.py`. -/
structure Payload08 where
  action : String
  tool_name : String
  tool_args : String
  approval_count : Nat
deriving DecidableEq

/-- Merge semantics of `State08`: `messages` appends (the `add_messages`
reducer, modelled from the spec), `approval_count` replaces when
present. -/
def merge08 (s : State08) (u : Upd08) : State08 :=
  ⟨s.messages ++ u.messages.getD [], u.approval_count.getD s.approval_count⟩

/-- `agent` from `08_durable_hitl.py`. -/
def agent08 (llm : List Msg → Msg) (s : State08) (_ : Option Decision) :
    Outcome Upd08 Payload08 :=
  .update ⟨some [llm s.messages], some s.approval_count⟩

/-- `human_approval` from `08_durable_hitl.py`: with no tool calls on the
last message go straight to END; otherwise suspend with the approval
payload, and on resume approve increments `approval_count` and goes to the
tools node, reject appends a rejection `ToolMessage` and returns to the
agent, and anything else goes to END. -/
def humanApproval08 (s : State08) (resume : Option Decision) : Outcome Upd08 Payload08 :=
  match lastCalls s.messages with
  | [] => .goto endNode none
  | tc :: _ =>
    match resume with
    | none =>
        .suspend ⟨"approve_tool_call", tc.name, tc.args, s.approval_count⟩
    | some decision =>
      if decision.action = some "approve" then
        .goto "tools" (some ⟨none, some (s.approval_count + 1)⟩)
      else if decision.action = some "reject" then
        .goto "agent" (some ⟨some [Msg.tool
          ("Rejected: " ++ decision.reason.getD "No reason") tc.id], none⟩)
      else
        .goto endNode none

/-- Tools node of `08_durable_hitl.py` (the prebuilt `ToolNode(tools)`,
modelled from the spec): run every tool call of the last message and
append one `ToolMessage` per call. -/
def toolsNode08 (toolRun : String → String → String) (s : State08) (_ : Option Decision) :
    Outcome Upd08 Payload08 :=
  .update ⟨some ((lastCalls s.messages).map fun c => Msg.tool (toolRun c.name c.args) c.id),
    none⟩

/-- Graph of `08_durable_hitl.py`: START → agent, conditional edge from
agent to human approval (or END) via `should_continue`, tools → agent;
compiled with the SQLite checkpointer. -/
def graph08 (llm : List Msg → Msg) (toolRun : String → String → String) :
    Graph State08 Upd08 Decision Payload08 where
  merge := merge08
  nodes := fun n =>
    if n = "agent" then some (agent08 llm)
    else if n = "human_approval" then some humanApproval08
    else if n = "tools" then some (toolsNode08 toolRun)
    else none
  edges := fun n s =>
    if n = "agent" then (if lastCalls s.messages ≠ [] then ["human_approval"] else [])
    else if n = "tools" then ["agent"]
    else []
  entry := ["agent"]

/-!
Source file `09_durable_production.py`: an append-semantics message log
next to a replace-semantics integer counter.
-/

/-- State of `09_durable_production.py`. -/
structure State09 where
  messages : List Msg
  counter : Int
deriving DecidableEq

/-- Update dictionary of the nodes of `09_durable_production.py` (both
fields are always returned). -/
structure Upd09 where
  messages : List Msg
  counter : Int
deriving DecidableEq

/-- Merge semantics of `State09`: `messages` appends (the `add_messages`
reducer, modelled from the spec), the plain `counter` field replaces. -/
def merge09 (s : State09) (u : Upd09) : State09 :=
  ⟨s.messages ++ u.messages, u.counter⟩

/-- `increment` from `09_durable_production.py`: one new message and the
incremented counter. -/
def increment (s : State09) : Upd09 :=
  ⟨[Msg.ai ("Counter: " ++ toString (s.counter + 1)) []], s.counter + 1⟩

/-!
Concrete fixtures used by the witness scenarios, instantiating the opaque
LLM and tool collaborators with stubs.
-/

/-- Stub LLM that requests one `send_email` tool call on the first turn
and answers plainly afterwards. -/
def llmStub : List Msg → Msg := fun msgs =>
  if msgs.length == 1 then Msg.ai "use tool" [⟨"send_email", "to=test", "tc1"⟩]
  else Msg.ai "done" []

/-- Stub tool runner. -/
def toolRunStub : String → String → String := fun _ args => "ran " ++ args

/-- The graph of `08_durable_hitl.py` over the stub collaborators. -/
def G08 : Graph State08 Upd08 Decision Payload08 := graph08 llmStub toolRunStub

/-- The graph of `07_durable_basic.py` over a stub LLM. -/
def G07 : Graph State07 Upd07 Unit Empty := graph07 fun _ => Msg.ai "ok" []

/-- The graph of `06_hitl_approve_reject_edit.py` over the stub
collaborators. -/
def G06 : Graph State06 Upd06 Decision Payload06 := graph06 llmStub toolRunStub

/-- Initial snapshot of the restart scenario of `08_durable_hitl.py`. -/
def exS0 : State08 := ⟨[Msg.human "Send an email to test"], 0⟩

/-- Snapshot persisted after the agent step of the restart scenario. -/
def exS1 : State08 :=
  ⟨[Msg.human "Send an email to test", Msg.ai "use tool" [⟨"send_email", "to=test", "tc1"⟩]], 0⟩

/-- Interrupt payload surfaced in the restart scenario. -/
def exP1 : Payload08 := ⟨"approve_tool_call", "send_email", "to=test", 0⟩

/-- The approval decision `{"action": "approve"}`. -/
def exApprove : Decision := ⟨some "approve", none, none⟩

/-- Snapshot of the suspended thread in the `06` approval scenario. -/
def exS6 : State06 :=
  ⟨[Msg.human "Send an email", Msg.ai "use tool" [⟨"send_email", "to=x", "tc1"⟩]]⟩

/-- Interrupt payload of the `06` approval scenario. -/
def exP6 : Payload06 :=
  ⟨"approve_tool_call", "send_email", "to=x", ["approve", "reject", "edit"]⟩

/-- Initial snapshot of the `07_durable_basic.py` restart scenario. -/
def exS7 : State07 := ⟨[Msg.human "Explain LangGraph briefly"], 0, []⟩

/-!
Engine lemmas shared by the claims.
-/

/-- The step loop never discards persisted checkpoints. -/
theorem runLoop_ne_nil {σ υ ρ π : Type} (g : Graph σ υ ρ π) :
    ∀ (fuel : Nat) (t : List (Checkpoint σ π)) (r : Option ρ),
      t ≠ [] → (runLoop g fuel t r).2 ≠ [] := by
  intro fuel
  induction fuel with
  | zero => intro t r ht; exact ht
  | succ f ih =>
    intro t r ht
    cases t with
    | nil => exact absurd rfl ht
    | cons cp rest =>
      cases hp : cp.pendingNodes with
      | nil => simp [runLoop, hp]
      | cons n ns =>
        cases hn : g.nodes n with
        | none => simp [runLoop, hp, hn]
        | some fNode =>
          cases ho : fNode cp.snapshot r with
          | suspend p => simp [runLoop, hp, hn, ho, execOutcome]
          | update u =>
            simp only [runLoop, hp, hn, ho, execOutcome]
            exact ih _ none (by simp)
          | goto tgt u =>
            simp only [runLoop, hp, hn, ho, execOutcome]
            exact ih _ none (by simp)

/-- Running the loop for `f1` steps until the budget is exhausted and then
continuing for `f2` further steps is the same as one uninterrupted run
with budget `f1 + f2`. -/
theorem runLoop_continue {σ υ ρ π : Type} (g : Graph σ υ ρ π) (f2 : Nat) :
    ∀ (f1 : Nat) (t t1 : List (Checkpoint σ π)),
      runLoop g f1 t none = (.outOfFuel, t1) →
      runLoop g (f1 + f2) t none = runLoop g f2 t1 none := by
  intro f1
  induction f1 with
  | zero =>
    intro t t1 h
    simp only [runLoop] at h
    obtain ⟨-, rfl⟩ := Prod.mk.injEq .. ▸ h
    simp [Nat.zero_add]
  | succ f ih =>
    intro t t1 h
    have hadd : f + 1 + f2 = (f + f2) + 1 := by omega
    rw [hadd]
    cases t with
    | nil => simp [runLoop] at h
    | cons cp rest =>
      cases hp : cp.pendingNodes with
      | nil => simp [runLoop, hp] at h
      | cons n ns =>
        cases hn : g.nodes n with
        | none => simp [runLoop, hp, hn] at h
        | some fNode =>
          cases ho : fNode cp.snapshot none with
          | suspend p => simp [runLoop, hp, hn, ho, execOutcome] at h
          | update u =>
            simp only [runLoop, hp, hn, ho, execOutcome] at h ⊢
            exact ih _ _ h
          | goto tgt u =>
            simp only [runLoop, hp, hn, ho, execOutcome] at h ⊢
            exact ih _ _ h

/-- A run returning `interrupted P` leaves, as the persisted latest
checkpoint, the suspension checkpoint: the suspended node still scheduled
first and the interrupt recorded with exactly the surfaced payload. -/
theorem runLoop_interrupted {σ υ ρ π : Type} (g : Graph σ υ ρ π) :
    ∀ (fuel : Nat) (t : List (Checkpoint σ π)) (r : Option ρ) (P : π)
      (t' : List (Checkpoint σ π)),
      runLoop g fuel t r = (.interrupted P, t') →
      ∃ s n ns rest f, t' = ⟨s, n :: ns, some (n, P)⟩ :: rest ∧ g.nodes n = some f := by
  intro fuel
  induction fuel with
  | zero => intro t r P t' h; simp [runLoop] at h
  | succ f ih =>
    intro t r P t' h
    cases t with
    | nil => simp [runLoop] at h
    | cons cp rest =>
      obtain ⟨snap, pend, iv⟩ := cp
      cases hp : pend with
      | nil => rw [hp] at h; simp [runLoop] at h
      | cons n ns =>
        rw [hp] at h
        cases hn : g.nodes n with
        | none => simp [runLoop, hn] at h
        | some fNode =>
          cases ho : fNode snap r with
          | suspend p =>
            simp only [runLoop, hn, ho, execOutcome] at h
            obtain ⟨hP, ht⟩ := Prod.mk.injEq .. ▸ h
            cases hP
            exact ⟨snap, n, ns, rest, fNode, ht.symm ▸ rfl, hn⟩
          | update u =>
            simp only [runLoop, hn, ho, execOutcome] at h
            exact ih _ _ _ _ h
          | goto tgt u =>
            simp only [runLoop, hn, ho, execOutcome] at h
            exact ih _ _ _ _ h

/-- Any `run` call returning `interrupted P` does so through the step
loop, so the suspension checkpoint of `runLoop_interrupted` is persisted. -/
theorem run_interrupted_shape {σ υ ρ π : Type} (g : Graph σ υ ρ π)
    (fuel : Nat) (t0 : List (Checkpoint σ π)) (inp : Option σ) (r : Option ρ)
    (P : π) (t' : List (Checkpoint σ π))
    (h : run g fuel t0 inp r = (.interrupted P, t')) :
    ∃ s n ns rest f, t' = ⟨s, n :: ns, some (n, P)⟩ :: rest ∧ g.nodes n = some f := by
  cases r with
  | some rv =>
    cases hu : unresolvedInterrupt t0 with
    | some _ =>
      refine runLoop_interrupted g fuel t0 (some rv) P t' ?_
      simpa [run, hu] using h
    | none => simp [run, hu] at h
  | none =>
    cases t0 with
    | nil =>
      cases inp with
      | none => simp [run] at h
      | some s0 => exact runLoop_interrupted g fuel _ none P t' h
    | cons cp rest => exact runLoop_interrupted g fuel _ none P t' h

/-- Resuming a thread whose latest checkpoint is suspended at node `n`
re-invokes the node function of `n` from its start on the checkpointed
snapshot, with the suspension call returning the resume value, and
continues the step loop from its outcome. -/
theorem run_resume_delivers {σ υ ρ π : Type} (g : Graph σ υ ρ π) (fuel : Nat)
    (s : σ) (n : NodeId) (ns : List NodeId) (P : π)
    (rest : List (Checkpoint σ π)) (inp : Option σ) (R : ρ)
    (f : σ → Option ρ → Outcome υ π) (hf : g.nodes n = some f) :
    run g (fuel + 1) (⟨s, n :: ns, some (n, P)⟩ :: rest) inp (some R) =
      execOutcome g (fun th => runLoop g fuel th none) ⟨s, n :: ns, some (n, P)⟩ rest n ns
        (f s (some R)) := by
  show runLoop g (fuel + 1) (⟨s, n :: ns, some (n, P)⟩ :: rest) (some R) = _
  simp [runLoop, hf]

/-- C1.  A thread suspended with payload `P` persists, in its latest
checkpoint (recoverable after a process restart from the checkpoint store
alone), an interrupt structurally equal to `P`; and resuming that thread
with any value `R` re-invokes the suspended node with the suspension call
returning exactly `R`, continuing execution from its outcome. -/
theorem interrupt_payload_fidelity {σ υ ρ π : Type} (g : Graph σ υ ρ π)
    (fuel fuel' : Nat) (t0 : List (Checkpoint σ π)) (inp : Option σ) (P : π)
    (s : σ) (n : NodeId) (ns : List NodeId) (iv : Option (NodeId × π))
    (rest : List (Checkpoint σ π)) (R : ρ) (f : σ → Option ρ → Outcome υ π)
    (h : run g fuel t0 inp none = (.interrupted P, ⟨s, n :: ns, iv⟩ :: rest))
    (hf : g.nodes n = some f) :
    unresolvedInterrupt (⟨s, n :: ns, iv⟩ :: rest) = some (n, P) ∧
    run g (fuel' + 1) (⟨s, n :: ns, iv⟩ :: rest) none (some R) =
      execOutcome g (fun th => runLoop g fuel' th none) ⟨s, n :: ns, some (n, P)⟩ rest n ns
        (f s (some R)) := by
  obtain ⟨s', n', ns', rest', f', ht, -⟩ :=
    run_interrupted_shape g fuel t0 inp none P _ h
  obtain ⟨hhd, hrest⟩ := List.cons.injEq .. ▸ ht
  obtain ⟨hs, hpend, hiv⟩ := Checkpoint.mk.injEq .. ▸ hhd
  obtain ⟨hn, hns⟩ := List.cons.injEq .. ▸ hpend
  subst hs hrest hns hn
  subst hiv
  exact ⟨rfl, run_resume_delivers g fuel' s n ns P rest none R f hf⟩

/-- Witness for C1 on the `08_durable_hitl.py` restart scenario. -/
theorem interrupt_payload_fidelity_witness :
    unresolvedInterrupt
        [⟨exS1, ["human_approval"], some ("human_approval", exP1)⟩, ⟨exS0, ["agent"], none⟩]
      = some ("human_approval", exP1) ∧
    run G08 5 [⟨exS1, ["human_approval"], some ("human_approval", exP1)⟩,
        ⟨exS0, ["agent"], none⟩] none (some exApprove) =
      execOutcome G08 (fun th => runLoop G08 4 th none)
        ⟨exS1, ["human_approval"], some ("human_approval", exP1)⟩
        [⟨exS0, ["agent"], none⟩] "human_approval" []
        (humanApproval08 exS1 (some exApprove)) :=
  interrupt_payload_fidelity G08 3 4 [] (some exS0) exP1 exS1 "human_approval" []
    (some ("human_approval", exP1)) [⟨exS0, ["agent"], none⟩] exApprove humanApproval08
    (by rfl) (by rfl)

/-- C2.  A thread stopped partway (step budget exhausted after writing its
checkpoints) and then continued with no new input and no resume value
yields exactly the result and checkpoint history of one uninterrupted
end-to-end run from the original input. -/
theorem resumable_continuation {σ υ ρ π : Type} (g : Graph σ υ ρ π)
    (f1 f2 : Nat) (s0 : σ) (t1 : List (Checkpoint σ π))
    (r2 : RunResult σ π) (t2 : List (Checkpoint σ π))
    (h1 : run g f1 [] (some s0) none = (.outOfFuel, t1))
    (h2 : run g f2 t1 none none = (r2, t2)) :
    run g (f1 + f2) [] (some s0) none = (r2, t2) := by
  have h1' : runLoop g f1 [⟨s0, g.entry, none⟩] none = (.outOfFuel, t1) := h1
  have hne : t1 ≠ [] := by
    have h := runLoop_ne_nil g f1 [⟨s0, g.entry, none⟩] none (by simp)
    rw [h1'] at h
    exact h
  have h2' : runLoop g f2 t1 none = (r2, t2) := by
    cases t1 with
    | nil => exact absurd rfl hne
    | cons cp rest => exact h2
  show runLoop g (f1 + f2) [⟨s0, g.entry, none⟩] none = (r2, t2)
  rw [runLoop_continue g f2 f1 _ t1 h1', h2']

/-- Witness for C2 on the `07_durable_basic.py` restart scenario: one
step, a simulated crash, then continuation. -/
theorem resumable_continuation_witness :
    run G07 (1 + 9) [] (some exS7) none =
      ((run G07 9 (run G07 1 [] (some exS7) none).2 none none).1,
       (run G07 9 (run G07 1 [] (some exS7) none).2 none none).2) :=
  resumable_continuation G07 1 9 exS7 (run G07 1 [] (some exS7) none).2
    (run G07 9 (run G07 1 [] (some exS7) none).2 none none).1
    (run G07 9 (run G07 1 [] (some exS7) none).2 none none).2
    (by rfl) (by rfl)

/-- C3.  Resuming a suspended thread re-executes the node that raised the
interrupt from its start on the checkpointed snapshot; on that
re-execution the suspension call returns the supplied resume value
immediately instead of suspending again, and execution continues from
that point. -/
theorem resume_reenters_node {σ υ ρ π : Type} (g : Graph σ υ ρ π) (fuel : Nat)
    (s : σ) (n : NodeId) (ns : List NodeId) (P : π)
    (rest : List (Checkpoint σ π)) (inp : Option σ) (R : ρ)
    (f : σ → Option ρ → Outcome υ π) (hf : g.nodes n = some f) :
    run g (fuel + 1) (⟨s, n :: ns, some (n, P)⟩ :: rest) inp (some R) =
      execOutcome g (fun th => runLoop g fuel th none) ⟨s, n :: ns, some (n, P)⟩ rest n ns
        (f s (some R)) :=
  run_resume_delivers g fuel s n ns P rest inp R f hf

/-- Witness for C3 on the `06_hitl_approve_reject_edit.py` approval
scenario. -/
theorem resume_reenters_node_witness :
    run G06 5 [⟨exS6, ["human_approval"], some ("human_approval", exP6)⟩] none
        (some exApprove) =
      execOutcome G06 (fun th => runLoop G06 4 th none)
        ⟨exS6, ["human_approval"], some ("human_approval", exP6)⟩ [] "human_approval" []
        (humanApproval06 exS6 (some exApprove)) :=
  resume_reenters_node G06 4 exS6 "human_approval" [] exP6 [] none exApprove
    humanApproval06 (by rfl)

/-- C4.  A resume call on a thread with no unresolved interrupt fails
with the `NoPendingInterrupt` error reported to the caller, and the
persisted checkpoint sequence (hence the snapshot) is left unchanged. -/
theorem resume_without_interrupt_errors {σ υ ρ π : Type} (g : Graph σ υ ρ π)
    (fuel : Nat) (t : List (Checkpoint σ π)) (inp : Option σ) (r : ρ)
    (h : unresolvedInterrupt t = none) :
    run g fuel t inp (some r) = (.failed .noPendingInterrupt, t) := by
  show (match unresolvedInterrupt t with
    | some _ => runLoop g fuel t (some r)
    | none => (.failed .noPendingInterrupt, t)) = (.failed .noPendingInterrupt, t)
  rw [h]

/-- Witness for C4: resuming a terminal thread of the `06` graph. -/
theorem resume_without_interrupt_errors_witness :
    run G06 5 [⟨exS6, [], none⟩] none (some exApprove) =
      (.failed .noPendingInterrupt, [⟨exS6, [], none⟩]) :=
  resume_without_interrupt_errors G06 5 [⟨exS6, [], none⟩] none exApprove (by rfl)

/-- C5.  Every reachable interrupt-controller state tracks at most one
unresolved interrupt, and requesting a second suspension while one
interrupt is pending is the defined `alreadySuspended` error — the pending
payload is not silently overwritten. -/
theorem single_unresolved_interrupt {π ρ : Type} (s : CtrlState π)
    (hs : CtrlReachable π ρ s) (p q : π) :
    pendingCount s ≤ 1 ∧
      ctrlStep (ρ := ρ) (CtrlState.suspended p) (CtrlEvent.suspend q) =
        .error .alreadySuspended := by
  refine ⟨?_, rfl⟩
  cases s <;> simp [pendingCount]

/-- Witness for C5: the state suspended at payload `ask` is reachable. -/
theorem single_unresolved_interrupt_witness :
    pendingCount (CtrlState.suspended "ask") ≤ 1 ∧
      ctrlStep (ρ := Unit) (CtrlState.suspended "ask") (CtrlEvent.suspend "other") =
        .error .alreadySuspended :=
  single_unresolved_interrupt (CtrlState.suspended "ask")
    ⟨[CtrlEvent.suspend "ask"], rfl⟩ "ask" "other"

/-- C6.  After putting an item under a namespace, no search over a
non-prefix (sibling) namespace returns any item of that namespace — in
particular not the stored item — while a search over any parent prefix
does return the stored item. -/
theorem namespace_isolation {V : Type} (s : MemStore V) (now : Nat)
    (ns1 ns2 par : List String) (k : String) (v : V)
    (hsib : nsLe ns2 ns1 = false) (hpar : nsLe par ns1 = true) :
    (∀ it ∈ memSearch (memPut s now ns1 k v) ns2, it.ns ≠ ns1) ∧
      ∃ c, (⟨ns1, k, v, c, now⟩ : MemItem V) ∈ memSearch (memPut s now ns1 k v) par := by
  constructor
  · intro it hit hns
    have hmem : nsLe ns2 it.ns = true := by
      simpa using (List.mem_filter.mp hit).2
    rw [hns, hsib] at hmem
    exact Bool.false_ne_true hmem
  · refine ⟨match memGet s ns1 k with | some old => old.created_at | none => now, ?_⟩
    refine List.mem_filter.mpr ⟨?_, by simpa using hpar⟩
    exact List.mem_cons_self _ _

/-- Witness for C6: the `alice` / `bob` / parent `users` scenario of
`11_memory_store_basic.py` and `13_memory_cross_thread.py`. -/
theorem namespace_isolation_witness :
    (∀ it ∈ memSearch (memPut ([] : MemStore String) 0 ["users", "alice"] "prefs" "dark")
        ["users", "bob"], it.ns ≠ ["users", "alice"]) ∧
      ∃ c, (⟨["users", "alice"], "prefs", "dark", c, 0⟩ : MemItem String) ∈
        memSearch (memPut ([] : MemStore String) 0 ["users", "alice"] "prefs" "dark")
          ["users"] :=
  namespace_isolation [] 0 ["users", "alice"] ["users", "bob"] ["users"] "prefs" "dark"
    (by rfl) (by rfl)

/-- Message-length accounting for the append reducer of `State09`. -/
theorem foldl_merge09_len (us : List Upd09) :
    ∀ s0 : State09, (us.foldl merge09 s0).messages.length
      = s0.messages.length + (us.map fun u => u.messages.length).sum := by
  induction us with
  | nil => intro s0; simp
  | cons u tl ih =>
    intro s0
    simp only [List.foldl_cons, List.map_cons, List.sum_cons]
    rw [ih (merge09 s0 u)]
    simp [merge09]
    omega

/-- The replace-semantics `counter` field of `State09` ends at the value
of the last update. -/
theorem foldl_merge09_counter (us : List Upd09) :
    ∀ (s0 : State09) (ul : Upd09), us.getLast? = some ul →
      (us.foldl merge09 s0).counter = ul.counter := by
  induction us with
  | nil => intro s0 ul h; cases h
  | cons u tl ih =>
    intro s0 ul h
    cases tl with
    | nil =>
      simp only [List.getLast?_singleton, Option.some.injEq] at h
      subst h
      rfl
    | cons u2 tl2 =>
      have h' : (u2 :: tl2).getLast? = some ul := by
        rwa [List.getLast?_cons_cons] at h
      simpa using ih (merge09 s0 u) ul h'

/-- C7.  Over any sequence of updates each contributing one message, the
append-semantics `messages` field of `09_durable_production.py`
accumulates to its initial length plus the number of updates, while the
replace-semantics `counter` field equals exactly the value of the most
recent update; the `increment` node contributes exactly one message per
update. -/
theorem merge_semantics_append_replace (s0 : State09) (us : List Upd09) (ul : Upd09)
    (h1 : ∀ u ∈ us, u.messages.length = 1)
    (hl : us.getLast? = some ul) :
    (us.foldl merge09 s0).messages.length = s0.messages.length + us.length ∧
      (us.foldl merge09 s0).counter = ul.counter ∧
      ∀ s : State09, (increment s).messages.length = 1 := by
  refine ⟨?_, foldl_merge09_counter us s0 ul hl, fun s => rfl⟩
  rw [foldl_merge09_len us s0]
  congr 1
  clear hl
  induction us with
  | nil => rfl
  | cons u tl ih =>
    simp only [List.map_cons, List.sum_cons, List.length_cons,
      h1 u (List.mem_cons_self u tl)]
    rw [ih fun u hu => h1 u (List.mem_cons_of_mem _ hu)]
    omega

/-- Witness for C7: two single-message updates produced by `increment`
from counter 0. -/
theorem merge_semantics_append_replace_witness :
    (([increment ⟨[], 0⟩, increment ⟨[Msg.ai "Counter: 1" []], 1⟩].foldl merge09
        ⟨[], 0⟩).messages.length = ([] : List Msg).length + 2) ∧
      (([increment ⟨[], 0⟩, increment ⟨[Msg.ai "Counter: 1" []], 1⟩].foldl merge09
        ⟨[], 0⟩).counter = (increment ⟨[Msg.ai "Counter: 1" []], 1⟩).counter) ∧
      ∀ s : State09, (increment s).messages.length = 1 :=
  merge_semantics_append_replace ⟨[], 0⟩
    [increment ⟨[], 0⟩, increment ⟨[Msg.ai "Counter: 1" []], 1⟩]
    (increment ⟨[Msg.ai "Counter: 1" []], 1⟩) (by decide) (by rfl)

/-- C8.  With `handle_tool_errors=True`, the tool node never propagates a
tool exception: it returns, for each call of the step, exactly one
`ToolMessage` carrying that call identifier, whose content is the tool
result on success and a description of the raised error on failure — and
each tool is invoked exactly once (attempt index 0, no engine retry). -/
theorem toolnode_captures_errors (tools : ToolEnv) (calls : List ToolCall) :
    toolNode true tools calls = .ok (calls.map fun c =>
      Msg.tool (match tools c.name 0 c.args with
        | .ok r => r.getD ""
        | .error e => "Error: " ++ e) c.id) := by
  induction calls with
  | nil => rfl
  | cons c cs ih =>
    cases h : tools c.name 0 c.args with
    | ok r => simp [toolNode, h, ih, Except.map]
    | error e => simp [toolNode, h, ih, Except.map]

/-- C9.  In the `06` approval node, a resume decision with no `action`
key defaults to reject (a rejection `ToolMessage` is appended and control
returns to the agent node), and a decision with an unrecognised action
routes back to the agent with no update; in neither case is the tools
node (which executes the pending call) the target. -/
theorem approval_default_and_unknown_action (s : State06) (m : Msg) (tc : ToolCall)
    (tcs : List ToolCall) (rs ea : Option String) (a : String)
    (hm : s.messages.getLast? = some m) (htc : m.toolCalls = tc :: tcs)
    (ha1 : a ≠ "approve") (ha2 : a ≠ "reject") (ha3 : a ≠ "edit") :
    humanApproval06 s (some ⟨none, rs, ea⟩) =
      .goto "agent" (some [Msg.tool
        ("Tool call rejected by human: " ++ rs.getD "No reason provided") tc.id]) ∧
    humanApproval06 s (some ⟨some a, rs, ea⟩) = .goto "agent" none := by
  have hlc : lastCalls s.messages = tc :: tcs := by
    simp [lastCalls, hm, htc]
  refine ⟨?_, ?_⟩
  · simp [humanApproval06, hlc]
  · simp [humanApproval06, hlc, ha1, ha2, ha3]

/-- Witness for C9: a pending `send_email` call with a missing action and
with the unrecognised action `escalate`. -/
theorem approval_default_and_unknown_action_witness :
    humanApproval06 exS6 (some ⟨none, none, none⟩) =
      .goto "agent" (some [Msg.tool
        ("Tool call rejected by human: " ++ "No reason provided") "tc1"]) ∧
    humanApproval06 exS6 (some ⟨some "escalate", none, none⟩) = .goto "agent" none := by
  have h := approval_default_and_unknown_action exS6
    (Msg.ai "use tool" [⟨"send_email", "to=x", "tc1"⟩]) ⟨"send_email", "to=x", "tc1"⟩
    [] none none "escalate" (by rfl) (by rfl) (by decide) (by decide) (by decide)
  simpa using h

/-- Bounds of the first non-raising attempt. -/
theorem firstOkFrom_ge (tool : Nat → Except String (Option String)) :
    ∀ (rem a j : Nat), firstOkFrom tool a rem = some j → a ≤ j ∧ j < a + rem := by
  intro rem
  induction rem with
  | zero => intro a j h; simp [firstOkFrom] at h
  | succ r ih =>
    intro a j h
    cases ht : tool a with
    | ok v =>
      simp only [firstOkFrom, ht, Option.some.injEq] at h
      omega
    | error e =>
      simp only [firstOkFrom, ht] at h
      have := ih (a + 1) j h
      omega

/-- The retry loop of `RetryToolNode` described through the first
non-raising attempt: its result, the recorded last error and the number
of invocations made. -/
theorem retryLoop_spec (tool : Nat → Except String (Option String)) :
    ∀ (rem a : Nat) (le : Option String),
      retryLoop tool a rem le =
        match firstOkFrom tool a rem with
        | some j =>
          (okValOf (tool j),
           if j = a then le else errTextOf (tool (j - 1)),
           j - a + 1)
        | none =>
          (none,
           if rem = 0 then le else errTextOf (tool (a + rem - 1)),
           rem) := by
  intro rem
  induction rem with
  | zero => intro a le; simp [retryLoop, firstOkFrom]
  | succ r ih =>
    intro a le
    cases ht : tool a with
    | ok v =>
      simp [retryLoop, firstOkFrom, ht, okValOf]
    | error e =>
      simp only [retryLoop, firstOkFrom, ht]
      rw [ih (a + 1) (some e)]
      cases hf : firstOkFrom tool (a + 1) r with
      | some j =>
        have hb := firstOkFrom_ge tool r (a + 1) j hf
        have hja : ¬(j = a) := by omega
        have hle : (if j = a + 1 then some e else errTextOf (tool (j - 1)))
            = (if j = a then le else errTextOf (tool (j - 1))) := by
          rw [if_neg hja]
          by_cases hj1 : j = a + 1
          · subst hj1
            simp [ht, errTextOf]
          · rw [if_neg hj1]
        have hcnt : j - (a + 1) + 1 + 1 = j - a + 1 := by omega
        dsimp only
        rw [hle, hcnt]
      | none =>
        have hle : (if r = 0 then some e else errTextOf (tool (a + 1 + r - 1)))
            = (if r + 1 = 0 then le else errTextOf (tool (a + (r + 1) - 1))) := by
          cases r with
          | zero => simp [ht, errTextOf]
          | succ r2 =>
            have h2 : a + 1 + (r2 + 1) - 1 = a + (r2 + 1 + 1) - 1 := by omega
            simp [h2]
        dsimp only
        rw [hle]

/-- Per-call corollary of `retryLoop_spec`: the produced content and the
number of invocations coincide with the claim-side description, which
never exceeds `max_retries + 1` attempts. -/
theorem retryCall_spec (tool : Nat → Except String (Option String)) (maxRetries : Nat) :
    (match (retryLoop tool 0 (maxRetries + 1) none).1 with
      | some r => r
      | none => failedMsg maxRetries (retryLoop tool 0 (maxRetries + 1) none).2.1)
      = claimedContent tool maxRetries ∧
    (retryLoop tool 0 (maxRetries + 1) none).2.2 = claimedInvocations tool maxRetries ∧
    (retryLoop tool 0 (maxRetries + 1) none).2.2 ≤ maxRetries + 1 := by
  rw [retryLoop_spec tool (maxRetries + 1) 0 none]
  unfold claimedContent claimedInvocations
  cases hf : firstOkFrom tool 0 (maxRetries + 1) with
  | some j =>
    have hb := firstOkFrom_ge tool (maxRetries + 1) 0 j hf
    dsimp only
    refine ⟨?_, by omega, by omega⟩
    cases htj : tool j with
    | ok v =>
      cases v with
      | some r => simp [okValOf, htj]
      | none => simp [okValOf, htj]
    | error e => simp [okValOf, htj]
  | none =>
    simp [failedMsg]

/-- C10.  `RetryToolNode` appends, per tool call of the last message,
exactly one `ToolMessage` bearing that call identifier whose content is
the claim-side description (result of the first non-raising attempt when
non-None, failure report after `max_retries + 1` attempts otherwise),
leaves `error_count` unchanged, and makes exactly the claimed number of
invocations, never more than `max_retries + 1`. -/
theorem retry_toolnode_meets_claim (maxRetries : Nat) (tools : ToolEnv) (s : State04) :
    retryToolNode maxRetries tools s =
      ⟨((s.messages.getLast?.map Msg.toolCalls).getD []).map fun c =>
          Msg.tool (claimedContent (fun a => tools c.name a c.args) maxRetries) c.id,
        s.error_count⟩ ∧
    ∀ tool : Nat → Except String (Option String),
      (retryLoop tool 0 (maxRetries + 1) none).2.2 = claimedInvocations tool maxRetries ∧
      (retryLoop tool 0 (maxRetries + 1) none).2.2 ≤ maxRetries + 1 := by
  refine ⟨?_, fun tool => (retryCall_spec tool maxRetries).2⟩
  unfold retryToolNode
  have hfun : (fun c : ToolCall =>
      let (result, lastError, _) :=
        retryLoop (fun a => tools c.name a c.args) 0 (maxRetries + 1) none
      match result with
      | some r => Msg.tool r c.id
      | none => Msg.tool (failedMsg maxRetries lastError) c.id) =
      (fun c : ToolCall =>
        Msg.tool (claimedContent (fun a => tools c.name a c.args) maxRetries) c.id) := by
    funext c
    have hc := (retryCall_spec (fun a => tools c.name a c.args) maxRetries).1
    rcases hE : retryLoop (fun a => tools c.name a c.args) 0 (maxRetries + 1) none with
      ⟨res, le, cnt⟩
    rw [hE] at hc
    cases res with
    | some r => simpa using congrArg (fun t => Msg.tool t c.id) hc
    | none => simpa using congrArg (fun t => Msg.tool t c.id) hc
  rw [hfun]
